import Mathlib

/-!
# Verification of the crypto price alert CLI (src/src/main.rs)

Shallow embedding of the program's logic.  Rust `f64` values are modelled by
`F64`: NaN, signed infinities, or an exact rational (rounding of finite
arithmetic is not modelled; the IEEE special-value propagation rules for the
operations the program uses — subtraction, division, multiplication, `abs`,
`>=` — are modelled faithfully).  Console input is modelled as a list of
already-read lines; the network layer is abstracted by passing the JSON
response body directly to the parsing step.
-/

/-- Model of a Rust `f64` value: NaN, an infinity (`neg = true` for `-∞`),
or a finite value carried exactly as a rational. -/
inductive F64 where
  | nan : F64
  | inf (neg : Bool) : F64
  | fin (q : ℚ) : F64
deriving DecidableEq, Repr

namespace F64

/-- IEEE subtraction `a - b` on the model (finite arithmetic exact). -/
def sub : F64 → F64 → F64
  | nan, _ => nan
  | _, nan => nan
  | inf s, inf t => if s = t then nan else inf s
  | inf s, fin _ => inf s
  | fin _, inf t => inf (!t)
  | fin x, fin y => fin (x - y)

/-- IEEE division `a / b` on the model; a finite zero is positive zero. -/
def div : F64 → F64 → F64
  | nan, _ => nan
  | _, nan => nan
  | inf _, inf _ => nan
  | inf s, fin y => inf (xor s (decide (y < 0)))
  | fin _, inf _ => fin 0
  | fin x, fin y =>
      if y = 0 then
        if x = 0 then nan else inf (decide (x < 0))
      else fin (x / y)

/-- IEEE multiplication `a * b` on the model. -/
def mul : F64 → F64 → F64
  | nan, _ => nan
  | _, nan => nan
  | inf s, inf t => inf (xor s t)
  | inf s, fin y => if y = 0 then nan else inf (xor s (decide (y < 0)))
  | fin x, inf t => if x = 0 then nan else inf (xor t (decide (x < 0)))
  | fin x, fin y => fin (x * y)

/-- Rust `f64::abs`. -/
def abs : F64 → F64
  | nan => nan
  | inf _ => inf false
  | fin x => fin |x|

/-- Rust `a >= b` on `f64`: false whenever either operand is NaN. -/
def ge : F64 → F64 → Bool
  | nan, _ => false
  | _, nan => false
  | inf false, _ => true
  | inf true, inf true => true
  | inf true, _ => false
  | fin _, inf false => false
  | fin _, inf true => true
  | fin x, fin y => decide (y ≤ x)

/-- Is the value NaN? -/
def isNan : F64 → Bool
  | nan => true
  | _ => false

end F64

/-- The `CoinGeckoPrice` struct of main.rs: a single `usd` price field.
JSON numbers are finite, so the field is carried as a rational. -/
structure CoinGeckoPrice where
  usd : ℚ
deriving DecidableEq, Repr

/-- The `FetchError` enum of main.rs.  `Reqwest` and `Io` carry the wrapped
error's message. -/
inductive FetchError where
  | Reqwest (msg : String)
  | Io (msg : String)
  | ParseError
deriving DecidableEq, Repr

/-- Model of a `serde_json::Value`. -/
inductive Json where
  | null
  | bool (b : Bool)
  | num (q : ℚ)
  | str (s : String)
  | arr (elems : List Json)
  | obj (fields : List (String × Json))

/-- `Value::get` with a string index: key lookup on objects, `None` otherwise. -/
def Json.get : Json → String → Option Json
  | Json.obj fields, key => fields.lookup key
  | _, _ => none

/-- `Value::as_f64`: the numeric payload of a number, `None` otherwise. -/
def Json.as_f64 : Json → Option ℚ
  | Json.num q => some q
  | _ => none

/-- The parsing step of `fetch_prices` (main.rs lines 23–34), with the network
layer abstracted: `response` is the JSON body the HTTP request returned.
Looks up `response[ticker]."usd"` and requires a numeric value, failing with
`ParseError` otherwise. -/
def fetch_prices (ticker : String) (response : Json) : Except FetchError CoinGeckoPrice :=
  match ((response.get ticker).bind (fun c => c.get "usd")).bind Json.as_f64 with
  | some price => Except.ok ⟨price⟩
  | none => Except.error FetchError.ParseError

/-- Rust's `str::trim`: drop whitespace from both ends. -/
def rustTrim (s : String) : String :=
  String.mk (((s.data.dropWhile Char.isWhitespace).reverse.dropWhile Char.isWhitespace).reverse)

/-- Rust's `str::to_lowercase` (the inputs of interest are ASCII). -/
def to_lowercase (s : String) : String :=
  String.mk (s.data.map Char.toLower)

/-- `prompt_user` (main.rs lines 36–42), with console input abstracted:
the line read from stdin is trimmed. -/
def prompt_user (input : String) : String := rustTrim input

/-- One output line printed by the poll loop body. -/
inductive OutLine where
  | currentPrice (ticker : String) (price : F64)
  | alertAbs (ticker : String) (change : F64) (price : F64)
  | alertPct (ticker : String) (pct : F64) (price : F64)
  | invalidAlertType
  | fetchError (e : FetchError)
deriving DecidableEq, Repr

/-- The alert decision of the poll loop body (main.rs lines 93–114), factored
out as the spec's Alert Evaluator contract: `price_change` and
`percent_change` are computed from `baseline` and `current`, and the selector
match returns the alert line to print, if any (`none` both when no alert
triggers and when the selector is unrecognized). -/
def evaluate (ticker alert_type : String) (threshold baseline current : F64) : Option OutLine :=
  let price_change := F64.sub current baseline
  let percent_change := F64.mul (F64.div price_change baseline) (F64.fin 100)
  if alert_type = "1" then
    if F64.ge (F64.abs price_change) threshold then
      some (OutLine.alertAbs ticker price_change current)
    else none
  else if alert_type = "2" then
    if F64.ge (F64.abs percent_change) threshold then
      some (OutLine.alertPct ticker percent_change current)
    else none
  else none

/-- One iteration of the poll loop (main.rs lines 90–117), as the list of
lines it prints: on a successful fetch, the current-price line, then the
evaluator's alert line if any, then the invalid-alert-type notice when the
selector is neither recognized value; on a failed fetch, the error line. -/
def loop_iter (ticker alert_type : String) (threshold initial_price : F64)
    (res : Except FetchError CoinGeckoPrice) : List OutLine :=
  match res with
  | Except.ok current_price =>
      OutLine.currentPrice ticker (F64.fin current_price.usd) ::
      ((evaluate ticker alert_type threshold initial_price (F64.fin current_price.usd)).toList ++
        (if alert_type = "1" ∨ alert_type = "2" then [] else [OutLine.invalidAlertType]))
  | Except.error e => [OutLine.fetchError e]

/-- The poll loop of main.rs (lines 87–118) over a finite trace of fetch
results, one per tick, as the concatenation of the lines each iteration
prints.  `initial_price` is the baseline captured before the loop; it is
passed unchanged to every iteration. -/
def poll_loop (ticker alert_type : String) (threshold initial_price : F64) :
    List (Except FetchError CoinGeckoPrice) → List OutLine
  | [] => []
  | res :: rest =>
      loop_iter ticker alert_type threshold initial_price res ++
        poll_loop ticker alert_type threshold initial_price rest

/-- The allow-list of `get_valid_ticker` (main.rs lines 55–65). -/
def valid_tickers : List (String × String) :=
  [("btc", "bitcoin"), ("bitcoin", "bitcoin"),
   ("eth", "ethereum"), ("ethereum", "ethereum"),
   ("ada", "cardano"), ("cardano", "cardano")]

/-- `get_valid_ticker` (main.rs lines 54–75) over the list of input lines:
each prompt answer is trimmed and lowercased, then looked up in the
allow-list; an unrecognized answer re-prompts on the next line.  `none`
models an input stream that ends before a valid ticker is entered (the real
loop would keep prompting). -/
def get_valid_ticker : List String → Option String
  | [] => none
  | line :: rest =>
    match valid_tickers.lookup (to_lowercase (prompt_user line)) with
    | some valid_ticker => some valid_ticker
    | none => get_valid_ticker rest

/-- ASCII lowercasing of one character, for the case-insensitive special
float strings. -/
def asciiLower (c : Char) : Char :=
  if 'A' ≤ c ∧ c ≤ 'Z' then Char.ofNat (c.toNat + 32) else c

/-- Split off the leading decimal digits. -/
def takeDigits : List Char → List Char × List Char
  | [] => ([], [])
  | c :: cs =>
    if c.isDigit then
      let p := takeDigits cs
      (c :: p.1, p.2)
    else ([], c :: cs)

/-- Value of a digit string. -/
def digitsVal (ds : List Char) : ℕ :=
  ds.foldl (fun n c => 10 * n + (c.toNat - 48)) 0

/-- The optional exponent suffix of a Rust float literal: either nothing
remains, or `e`/`E`, an optional sign and a nonempty digit string consume
the whole remainder. -/
def parseExp (base : ℚ) : List Char → Option ℚ
  | [] => some base
  | c :: cs =>
    if c = 'e' ∨ c = 'E' then
      let p : Bool × List Char :=
        match cs with
        | '+' :: r => (false, r)
        | '-' :: r => (true, r)
        | r => (false, r)
      let d := takeDigits p.2
      if d.1.isEmpty ∨ ¬ d.2.isEmpty then none
      else some (if p.1 then base / 10 ^ digitsVal d.1 else base * 10 ^ digitsVal d.1)
    else none

/-- The `Number` alternative of Rust's `f64` grammar:
`Digit+ | Digit+ . Digit* | Digit* . Digit+`, then an optional exponent;
the value is computed exactly as a rational. -/
def parseNumber (cs : List Char) : Option ℚ :=
  let ip := takeDigits cs
  match ip.2 with
  | '.' :: rest =>
    let fp := takeDigits rest
    if ip.1.isEmpty ∧ fp.1.isEmpty then none
    else parseExp ((digitsVal ip.1 : ℚ) + (digitsVal fp.1 : ℚ) / 10 ^ fp.1.length) fp.2
  | _ =>
    if ip.1.isEmpty then none else parseExp (digitsVal ip.1 : ℚ) ip.2

/-- Rust's `str::parse::<f64>` grammar: an optional sign, then one of the
case-insensitive strings `inf` / `infinity` / `nan` or a decimal number with
optional fraction and exponent.  Finite values are carried exactly (rounding
to the nearest representable double is not modelled). -/
def parse_f64 (s : String) : Option F64 :=
  let p : Bool × List Char :=
    match s.data with
    | '+' :: r => (false, r)
    | '-' :: r => (true, r)
    | r => (false, r)
  let lower := p.2.map asciiLower
  if lower = "inf".data ∨ lower = "infinity".data then some (F64.inf p.1)
  else if lower = "nan".data then some F64.nan
  else
    match parseNumber p.2 with
    | some q => some (F64.fin (if p.1 then -q else q))
    | none => none

/-- `prompt_for_f64` (main.rs lines 44–52) over the list of input lines:
returns the value of the first line that parses as an `f64`; an unparseable
line re-prompts on the next one.  `none` models an input stream that ends
before a valid number is entered. -/
def prompt_for_f64 : List String → Option F64
  | [] => none
  | line :: rest =>
    match parse_f64 (prompt_user line) with
    | some value => some value
    | none => prompt_for_f64 rest

/-- C1: for every baseline > 0, current price and threshold (finite values),
the absolute-delta branch (selector "1") raises an alert iff
`|current - baseline| >= threshold`; the comparison is inclusive. -/
theorem evaluate_absolute_delta_iff (ticker : String) (b c t : ℚ) (hb : 0 < b) :
    (evaluate ticker "1" (F64.fin t) (F64.fin b) (F64.fin c)).isSome = true ↔
      t ≤ |c - b| := by
  simp only [evaluate, F64.sub, F64.abs, F64.ge, if_pos rfl, reduceIte]
  split <;> simp_all

/-- Witness for C1 at the exact threshold boundary: baseline 100, current 105,
threshold 5 — the delta equals the threshold and the alert fires. -/
theorem evaluate_absolute_delta_iff_witness :
    (0 : ℚ) < 100 ∧
      (evaluate "bitcoin" "1" (F64.fin 5) (F64.fin 100) (F64.fin 105)).isSome = true :=
  ⟨by norm_num,
   (evaluate_absolute_delta_iff "bitcoin" 100 105 5 (by norm_num)).mpr (by norm_num)⟩

/-- C2: for every baseline > 0, current price and threshold (finite values),
the percent-delta branch (selector "2") raises an alert iff
`|(current - baseline) / baseline * 100| >= threshold`; in the end-to-end
scenario baseline 100, threshold 5, current 94 the alert reports a -6 percent
change and current price 94. -/
theorem evaluate_percent_delta_iff :
    (∀ (ticker : String) (b c t : ℚ), 0 < b →
      ((evaluate ticker "2" (F64.fin t) (F64.fin b) (F64.fin c)).isSome = true ↔
        t ≤ |(c - b) / b * 100|)) ∧
    evaluate "bitcoin" "2" (F64.fin 5) (F64.fin 100) (F64.fin 94) =
      some (OutLine.alertPct "bitcoin" (F64.fin (-6)) (F64.fin 94)) := by
  constructor
  · intro ticker b c t hb
    simp only [evaluate, F64.sub, F64.div, F64.mul, F64.abs, F64.ge,
      if_neg hb.ne', reduceIte]
    split <;> simp_all
  · simp only [evaluate, F64.sub, F64.div, F64.mul, F64.abs, F64.ge, reduceIte]
    norm_num
    intro h
    exact absurd h (by decide)

/-- Witness for C2: the universally quantified part applied to the concrete
end-to-end scenario. -/
theorem evaluate_percent_delta_iff_witness :
    (0 : ℚ) < 100 ∧
      (evaluate "bitcoin" "2" (F64.fin 5) (F64.fin 100) (F64.fin 94)).isSome = true :=
  ⟨by norm_num,
   (evaluate_percent_delta_iff.1 "bitcoin" 100 94 5 (by norm_num)).mpr (by norm_num)⟩

/-- C3: the fetch parse succeeds with price `v` exactly when
`response[ticker]."usd"` exists and is the numeric value `v`, and fails with
`ParseError` whenever either key is absent or the value is not numeric;
in particular on the three concrete example bodies from the spec. -/
theorem fetch_prices_spec :
    (∀ (ticker : String) (response : Json) (v : ℚ),
      fetch_prices ticker response = Except.ok ⟨v⟩ ↔
        (Json.get response ticker).bind (fun c => Json.get c "usd") =
          some (Json.num v)) ∧
    (∀ (ticker : String) (response : Json),
      (∀ v : ℚ, (Json.get response ticker).bind (fun c => Json.get c "usd") ≠
          some (Json.num v)) →
        fetch_prices ticker response = Except.error FetchError.ParseError) ∧
    fetch_prices "bitcoin"
        (Json.obj [("bitcoin", Json.obj [("usd", Json.num (67000.5 : ℚ))])]) =
      Except.ok ⟨(67000.5 : ℚ)⟩ ∧
    fetch_prices "bitcoin" (Json.obj [("bitcoin", Json.obj [])]) =
      Except.error FetchError.ParseError ∧
    fetch_prices "bitcoin"
        (Json.obj [("ethereum", Json.obj [("usd", Json.num 123)])]) =
      Except.error FetchError.ParseError := by
  refine ⟨?_, ?_, ?_, ?_, ?_⟩
  · intro ticker response v
    cases h : (Json.get response ticker).bind (fun c => Json.get c "usd") with
    | none => simp [fetch_prices, h]
    | some j => cases j <;> simp [fetch_prices, h, Json.as_f64]
  · intro ticker response hv
    cases h : (Json.get response ticker).bind (fun c => Json.get c "usd") with
    | none => simp [fetch_prices, h]
    | some j =>
      cases j <;> first
        | exact absurd h (hv _)
        | simp [fetch_prices, h, Json.as_f64]
  · simp [fetch_prices, Json.get, Json.as_f64, List.lookup]
  · simp [fetch_prices, Json.get, Json.as_f64, List.lookup]
  · simp [fetch_prices, Json.get, Json.as_f64, List.lookup]

/-- Witness for C3: the ParseError part applied to a concrete body with no
object at all. -/
theorem fetch_prices_spec_witness :
    fetch_prices "bitcoin" Json.null = Except.error FetchError.ParseError :=
  fetch_prices_spec.2.1 "bitcoin" Json.null (fun v => by simp [Json.get])

/-- C4: a fetch failure at any iteration of the poll loop is never fatal —
that iteration prints exactly the error line, every later iteration still
runs, and the baseline `initial_price` passed to the later iterations is
unchanged. -/
theorem poll_loop_error_never_fatal (ticker alert_type : String)
    (threshold initial_price : F64)
    (pre post : List (Except FetchError CoinGeckoPrice)) (e : FetchError) :
    poll_loop ticker alert_type threshold initial_price
        (pre ++ Except.error e :: post) =
      poll_loop ticker alert_type threshold initial_price pre ++
        OutLine.fetchError e ::
          poll_loop ticker alert_type threshold initial_price post := by
  induction pre with
  | nil => simp [poll_loop, loop_iter]
  | cons r rs ih => simp [poll_loop, ih]

/-- A successful allow-list lookup only ever returns one of the three
canonical identifiers. -/
theorem lookup_valid_tickers_mem (k w : String)
    (h : valid_tickers.lookup k = some w) :
    w = "bitcoin" ∨ w = "ethereum" ∨ w = "cardano" := by
  simp only [valid_tickers, List.lookup] at h
  repeat' split at h
  all_goals simp_all

/-- C5: the validated ticker prompt lowercases its trimmed input; "BTC"
resolves to the canonical id "bitcoin", "doge" is rejected and the next
line is consulted, and whatever value the prompt returns is one of
"bitcoin", "ethereum", "cardano". -/
theorem get_valid_ticker_spec :
    (∀ rest, get_valid_ticker ("BTC" :: rest) = some "bitcoin") ∧
    (∀ rest, get_valid_ticker ("doge" :: rest) = get_valid_ticker rest) ∧
    (∀ (inputs : List String) (v : String),
      get_valid_ticker inputs = some v →
        v = "bitcoin" ∨ v = "ethereum" ∨ v = "cardano") := by
  refine ⟨?_, ?_, ?_⟩
  · intro rest
    have h : valid_tickers.lookup (to_lowercase (prompt_user "BTC")) =
        some "bitcoin" := by decide
    simp only [get_valid_ticker, h]
  · intro rest
    have h : valid_tickers.lookup (to_lowercase (prompt_user "doge")) = none := by
      decide
    simp only [get_valid_ticker, h]
  · intro inputs
    induction inputs with
    | nil => intro v h; simp [get_valid_ticker] at h
    | cons line rest ih =>
      intro v h
      simp only [get_valid_ticker] at h
      cases hl : valid_tickers.lookup (to_lowercase (prompt_user line)) with
      | none => rw [hl] at h; exact ih v h
      | some w =>
        rw [hl] at h
        cases h
        exact lookup_valid_tickers_mem _ v hl

/-- Witness for C5: the range part applied to a concrete accepted input. -/
theorem get_valid_ticker_spec_witness :
    "ethereum" = "bitcoin" ∨ "ethereum" = "ethereum" ∨ "ethereum" = "cardano" :=
  get_valid_ticker_spec.2.2 ["eth"] "ethereum" (by decide)

/-- C6: for any selector other than "1" and "2" the evaluator never raises an
alert (for all baseline, current and threshold values); instead each
successful poll iteration prints the current-price line followed by the
invalid-alert-type notice, so the notice is re-printed once per successful
tick of the poll loop. -/
theorem invalid_selector_spec (alert_type : String)
    (h1 : alert_type ≠ "1") (h2 : alert_type ≠ "2") :
    (∀ (ticker : String) (threshold baseline current : F64),
        evaluate ticker alert_type threshold baseline current = none) ∧
    (∀ (ticker : String) (threshold initial_price : F64)
        (current_price : CoinGeckoPrice),
        loop_iter ticker alert_type threshold initial_price
            (Except.ok current_price) =
          [OutLine.currentPrice ticker (F64.fin current_price.usd),
           OutLine.invalidAlertType]) ∧
    (∀ (ticker : String) (threshold initial_price : F64)
        (results : List (Except FetchError CoinGeckoPrice)),
        (poll_loop ticker alert_type threshold initial_price results).count
            OutLine.invalidAlertType =
          results.countP (fun r => match r with
            | Except.ok _ => true
            | Except.error _ => false)) := by
  have he : ∀ (ticker : String) (threshold baseline current : F64),
      evaluate ticker alert_type threshold baseline current = none := by
    intro ticker threshold baseline current
    simp [evaluate, h1, h2]
  have hi : ∀ (ticker : String) (threshold initial_price : F64)
      (current_price : CoinGeckoPrice),
      loop_iter ticker alert_type threshold initial_price
          (Except.ok current_price) =
        [OutLine.currentPrice ticker (F64.fin current_price.usd),
         OutLine.invalidAlertType] := by
    intro ticker threshold initial_price current_price
    simp [loop_iter, he, h1, h2]
  refine ⟨he, hi, ?_⟩
  intro ticker threshold initial_price results
  induction results with
  | nil => simp [poll_loop]
  | cons r rs ih =>
    cases r with
    | ok cp =>
      simp [poll_loop, hi, List.count_append, ih, List.countP_cons,
        List.count_cons]
    | error e =>
      simp [poll_loop, loop_iter, List.count_append, ih, List.countP_cons,
        List.count_cons]

/-- Witness for C6 at the concrete selector "3": no alert, the notice is
printed on the successful tick, and over a three-tick trace with one failure
the notice appears exactly as often as a fetch succeeds. -/
theorem invalid_selector_spec_witness :
    evaluate "bitcoin" "3" (F64.fin 5) (F64.fin 100) (F64.fin 94) = none ∧
    loop_iter "bitcoin" "3" (F64.fin 5) (F64.fin 100) (Except.ok ⟨94⟩) =
      [OutLine.currentPrice "bitcoin" (F64.fin 94), OutLine.invalidAlertType] ∧
    (poll_loop "bitcoin" "3" (F64.fin 5) (F64.fin 100)
        [Except.ok ⟨94⟩, Except.error FetchError.ParseError,
         Except.ok ⟨95⟩]).count OutLine.invalidAlertType =
      List.countP (fun r => match r with
          | Except.ok _ => true
          | Except.error _ => false)
        [Except.ok (⟨94⟩ : CoinGeckoPrice), Except.error FetchError.ParseError,
         Except.ok ⟨95⟩] :=
  ⟨(invalid_selector_spec "3" (by decide) (by decide)).1 "bitcoin" _ _ _,
   (invalid_selector_spec "3" (by decide) (by decide)).2.1 "bitcoin" _ _ _,
   (invalid_selector_spec "3" (by decide) (by decide)).2.2 "bitcoin" _ _ _⟩

/-- C7 counterexample: the numeric prompt accepts the input line "-5", so the
configuration phase can store a threshold that is not positive. -/
theorem prompt_threshold_nonpositive_cex :
    prompt_for_f64 ["-5"] = some (F64.fin (-5)) ∧ ¬ ((0 : ℚ) < -5) := by
  constructor
  · simp [prompt_for_f64, prompt_user, rustTrim, parse_f64, parseNumber,
      parseExp, takeDigits, digitsVal, asciiLower]
  · norm_num

/-- C7 (amended): the threshold the configuration phase produces is exactly
the parsed value of the first input line that parses as an `f64`; no
positivity requirement is enforced. -/
theorem prompt_for_f64_value_from_input (inputs : List String) (v : F64)
    (h : prompt_for_f64 inputs = some v) :
    ∃ line ∈ inputs, parse_f64 (prompt_user line) = some v := by
  induction inputs with
  | nil => simp [prompt_for_f64] at h
  | cons line rest ih =>
    simp only [prompt_for_f64] at h
    cases hp : parse_f64 (prompt_user line) with
    | some w =>
      rw [hp] at h
      cases h
      exact ⟨line, by simp, hp⟩
    | none =>
      rw [hp] at h
      obtain ⟨l, hl, hpl⟩ := ih h
      exact ⟨l, by simp [hl], hpl⟩

/-- Witness for the amended C7, at the concrete input line "-5". -/
theorem prompt_for_f64_value_from_input_witness :
    ∃ line ∈ ["-5"], parse_f64 (prompt_user line) = some (F64.fin (-5)) :=
  prompt_for_f64_value_from_input ["-5"] (F64.fin (-5)) (by
    simp [prompt_for_f64, prompt_user, rustTrim, parse_f64, parseNumber,
      parseExp, takeDigits, digitsVal, asciiLower])

/-- C8 counterexample: a JSON body carrying a negative number makes the fetch
succeed with a negative price — the code applies no sign check. -/
theorem fetch_negative_price_cex :
    fetch_prices "bitcoin"
        (Json.obj [("bitcoin", Json.obj [("usd", Json.num (-1))])]) =
      Except.ok ⟨-1⟩ ∧ ((-1 : ℚ) < 0) := by
  constructor
  · simp [fetch_prices, Json.get, Json.as_f64, List.lookup]
  · norm_num

/-- C8 (amended): a successful fetch returns exactly the numeric value found
at `response[ticker]."usd"`, so the price is non-negative precisely when that
JSON value is; non-negativity is not enforced by the code. -/
theorem fetch_price_equals_json_value (ticker : String) (response : Json)
    (v : ℚ) (h : fetch_prices ticker response = Except.ok ⟨v⟩) :
    (Json.get response ticker).bind (fun c => Json.get c "usd") =
      some (Json.num v) := by
  cases hc : (Json.get response ticker).bind (fun c => Json.get c "usd") with
  | none => simp [fetch_prices, hc] at h
  | some j =>
    cases j <;> simp [fetch_prices, hc, Json.as_f64] at h <;> simp_all

/-- Witness for the amended C8 at the negative-price body. -/
theorem fetch_price_equals_json_value_witness :
    (Json.get (Json.obj [("bitcoin", Json.obj [("usd", Json.num (-1))])])
        "bitcoin").bind (fun c => Json.get c "usd") = some (Json.num (-1)) :=
  fetch_price_equals_json_value "bitcoin" _ (-1)
    (by simp [fetch_prices, Json.get, Json.as_f64, List.lookup])

/-- C9 counterexample: with baseline exactly zero, current price zero and the
positive threshold 5, the percent computation is `0/0 = NaN`, `NaN` compares
false under `>=`, and no alert fires — refuting "an alert fires for every
current price and every positive threshold". -/
theorem zero_baseline_zero_current_cex :
    (0 : ℚ) < 5 ∧
      evaluate "bitcoin" "2" (F64.fin 5) (F64.fin 0) (F64.fin 0) = none := by
  refine ⟨by norm_num, ?_⟩
  simp [evaluate, F64.sub, F64.div, F64.mul, F64.abs, F64.ge]

/-- C9 (amended): with baseline exactly zero the percent-delta division is a
division by zero; for every nonzero current price it yields a signed
infinity whose absolute value exceeds any positive threshold, so the alert
fires — but for current price zero the result is NaN and no alert fires. -/
theorem zero_baseline_percent_alert (ticker : String) (c t : ℚ)
    (hc : c ≠ 0) (ht : 0 < t) :
    (evaluate ticker "2" (F64.fin t) (F64.fin 0) (F64.fin c)).isSome = true := by
  have h1 : F64.sub (F64.fin c) (F64.fin 0) = F64.fin c := by simp [F64.sub]
  have h2 : F64.div (F64.fin c) (F64.fin 0) = F64.inf (decide (c < 0)) := by
    simp [F64.div, hc]
  have h3 : F64.mul (F64.inf (decide (c < 0))) (F64.fin 100) =
      F64.inf (decide (c < 0)) := by
    norm_num [F64.mul]
  have h4 : F64.abs (F64.inf (decide (c < 0))) = F64.inf false := by
    simp [F64.abs]
  simp [evaluate, h1, h2, h3, h4, F64.ge]

/-- Witness for the amended C9: baseline 0, current 1, threshold 5. -/
theorem zero_baseline_percent_alert_witness :
    (1 : ℚ) ≠ 0 ∧ (0 : ℚ) < 5 ∧
      (evaluate "bitcoin" "2" (F64.fin 5) (F64.fin 0) (F64.fin 1)).isSome =
        true :=
  ⟨by norm_num, by norm_num,
   zero_baseline_percent_alert "bitcoin" 1 5 (by norm_num) (by norm_num)⟩

/-- C10: the numeric prompt accepts any line that parses as an `f64` —
including zero, negative, infinite and NaN values — and whenever the stored
threshold is `<= 0`, the absolute-delta branch alerts on every successful
poll whose price difference is not NaN. -/
theorem nonpositive_threshold_always_alerts :
    (∀ (line : String) (rest : List String) (v : F64),
        parse_f64 (prompt_user line) = some v →
          prompt_for_f64 (line :: rest) = some v) ∧
    (parse_f64 "0" = some (F64.fin 0) ∧ parse_f64 "-1" = some (F64.fin (-1)) ∧
      parse_f64 "inf" = some (F64.inf false) ∧ parse_f64 "NaN" = some F64.nan) ∧
    (∀ (ticker : String) (threshold baseline current : F64),
        F64.ge (F64.fin 0) threshold = true →
        F64.isNan (F64.sub current baseline) = false →
        (evaluate ticker "1" threshold baseline current).isSome = true) := by
  refine ⟨?_, ⟨?_, ?_, ?_, ?_⟩, ?_⟩
  · intro line rest v hp
    simp only [prompt_for_f64, hp]
  · simp [parse_f64, parseNumber, parseExp, takeDigits, digitsVal, asciiLower]
  · simp [parse_f64, parseNumber, parseExp, takeDigits, digitsVal, asciiLower]
  · decide
  · decide
  · intro ticker threshold baseline current hth hnan
    cases hd : F64.sub current baseline with
    | nan => rw [hd] at hnan; simp [F64.isNan] at hnan
    | inf s =>
      cases threshold with
      | nan => simp [F64.ge] at hth
      | inf b =>
        cases b with
        | false => simp [F64.ge] at hth
        | true => simp [evaluate, hd, F64.abs, F64.ge]
      | fin t => simp [evaluate, hd, F64.abs, F64.ge]
    | fin x =>
      cases threshold with
      | nan => simp [F64.ge] at hth
      | inf b =>
        cases b with
        | false => simp [F64.ge] at hth
        | true => simp [evaluate, hd, F64.abs, F64.ge]
      | fin t =>
        have ht : t ≤ 0 := by simpa [F64.ge] using hth
        have hx : t ≤ |x| := le_trans ht (abs_nonneg x)
        simp [evaluate, hd, F64.abs, F64.ge, hx]

/-- Witness for C10: the prompt accepts "-1", and with threshold -1 the
absolute-delta branch alerts even on an unchanged price. -/
theorem nonpositive_threshold_always_alerts_witness :
    prompt_for_f64 ["-1"] = some (F64.fin (-1)) ∧
      (evaluate "bitcoin" "1" (F64.fin (-1)) (F64.fin 100)
          (F64.fin 100)).isSome = true :=
  ⟨nonpositive_threshold_always_alerts.1 "-1" [] (F64.fin (-1)) (by
      simp [prompt_user, rustTrim, parse_f64, parseNumber, parseExp,
        takeDigits, digitsVal, asciiLower]),
   nonpositive_threshold_always_alerts.2.2 "bitcoin" (F64.fin (-1))
     (F64.fin 100) (F64.fin 100) (by norm_num [F64.ge])
     (by simp [F64.sub, F64.isNan])⟩
